import Mathlib

/-!
# Verification of the monetary / PIX-payload core of `adegav2.py`

Shallow embedding of the numeric and encoding core of the repository:

* Python `decimal.Decimal` values are modelled as exact rationals (`ℚ`);
  the module's computations stay far below the 28-significant-digit context
  precision, so exact arithmetic is faithful on the monetary domain.
* `Decimal.quantize(Decimal("0.01"))` with no explicit rounding argument uses
  the default context rounding, which is `ROUND_HALF_EVEN`; this is modelled
  by `rhe` / `quantHE`.  `ROUND_HALF_UP` (used by the spec's wording) is
  modelled by `rhu` / `quantHU`.
* Python `str` values are modelled as `List Char` (Python strings are
  sequences of Unicode code points); `len` is `List.length`, slicing
  `s[:n]` is `List.take n`, and `s or d` (truthiness fallback) is `pyOr`.
* `bytes` values are modelled as `List Nat` with every element `< 256`;
  `str.encode("utf-8")` is `utf8Str`.
-/

namespace Adega

/-- Round a rational to the nearest integer, ties to the even integer
(`ROUND_HALF_EVEN`, the Python `decimal` default context rounding). -/
def rhe (q : ℚ) : ℤ :=
  if q - ⌊q⌋ < 1/2 then ⌊q⌋
  else if 1/2 < q - ⌊q⌋ then ⌊q⌋ + 1
  else if ⌊q⌋ % 2 = 0 then ⌊q⌋ else ⌊q⌋ + 1

/-- Round a rational to the nearest integer, ties away from zero
(`ROUND_HALF_UP` in Python `decimal` terms). -/
def rhu (q : ℚ) : ℤ :=
  if q - ⌊q⌋ < 1/2 then ⌊q⌋
  else if 1/2 < q - ⌊q⌋ then ⌊q⌋ + 1
  else if 0 ≤ q then ⌊q⌋ + 1 else ⌊q⌋

/-- `x.quantize(MONEY_Q)` with the default (half-even) context rounding:
round to a multiple of `0.01`. -/
def quantHE (q : ℚ) : ℚ := (rhe (100 * q) : ℚ) / 100

/-- `x.quantize(MONEY_Q, rounding=ROUND_HALF_UP)`: round to a multiple of
`0.01`, ties away from zero. -/
def quantHU (q : ℚ) : ℚ := (rhu (100 * q) : ℚ) / 100

/-! ## Pricing engine (pure cores of `ProductRepo.upsert` / `SalesRepo.add_item`) -/

/-- Pure pricing core of `ProductRepo.upsert`:
`sale_price = (cost * (Decimal('1.0') + (margin/Decimal('100')))).quantize(MONEY_Q)`.
The `quantize` call passes no rounding argument, so the context default
`ROUND_HALF_EVEN` applies. -/
def upsert_sale_price (cost margin : ℚ) : ℚ :=
  quantHE (cost * (1 + margin / 100))

/-- Pure line-totals core of `SalesRepo.add_item`:
`line_total = (unit_price * qty).quantize(MONEY_Q)`,
`line_profit = ((unit_price - unit_cost) * qty).quantize(MONEY_Q)`.
The method performs no validation of `qty` and never raises; the quantity is a
Python `int`, modelled as `ℤ`. -/
def add_item_totals (unit_price unit_cost : ℚ) (qty : ℤ) : ℚ × ℚ :=
  (quantHE (unit_price * qty), quantHE ((unit_price - unit_cost) * qty))

/-! ## Digit / hex rendering helpers -/

/-- The ASCII digit character for `n < 10`. -/
def digitChar (n : Nat) : Char := Char.ofNat (48 + n)

/-- Uppercase hexadecimal digit character for `n < 16`. -/
def hexDigitChar (n : Nat) : Char :=
  if n < 10 then digitChar n else Char.ofNat (55 + n)

/-- `f"{n:04X}"` for `n < 0x10000` (the CRC register is masked with
`crc &= 0xFFFF`, so the value formatted in the source is always below
`0x10000` and the rendering is exactly these four nibbles). -/
def fmt04X (n : Nat) : List Char :=
  [hexDigitChar (n / 4096 % 16), hexDigitChar (n / 256 % 16),
   hexDigitChar (n / 16 % 16), hexDigitChar (n % 16)]

/-- Decimal digit string of `n`, accumulator form with explicit fuel
(structural recursion so the kernel can evaluate it; a fuel of `n + 1`
always suffices because the argument shrinks by a factor of ten). -/
def decRepCore : Nat → Nat → List Char → List Char
  | 0, _, acc => acc
  | fuel + 1, n, acc =>
    if n < 10 then digitChar n :: acc
    else decRepCore fuel (n / 10) (digitChar (n % 10) :: acc)

/-- Decimal digit string of `n` (`"0"` for `0`). -/
def decRep (n : Nat) : List Char := decRepCore (n + 1) n []

/-- `f"{n:02d}"` for a natural `n`: zero-padded to a minimum width of two,
wider when `n ≥ 100`. -/
def fmt02d (n : Nat) : List Char :=
  if n < 10 then ['0', digitChar n] else decRep n

/-! ## UTF-8 encoding (`str.encode("utf-8")`) -/

/-- UTF-8 byte sequence of a single code point. -/
def utf8Char (c : Char) : List Nat :=
  let n := c.toNat
  if n < 0x80 then [n]
  else if n < 0x800 then
    [0xC0 ||| (n >>> 6), 0x80 ||| (n &&& 0x3F)]
  else if n < 0x10000 then
    [0xE0 ||| (n >>> 12), 0x80 ||| ((n >>> 6) &&& 0x3F), 0x80 ||| (n &&& 0x3F)]
  else
    [0xF0 ||| (n >>> 18), 0x80 ||| ((n >>> 12) &&& 0x3F),
     0x80 ||| ((n >>> 6) &&& 0x3F), 0x80 ||| (n &&& 0x3F)]

/-- `s.encode("utf-8")` on the `List Char` model of `str`. -/
def utf8Str (s : List Char) : List Nat := s.flatMap utf8Char

/-! ## CRC-16/CCITT-FALSE (`_crc16_ccitt`) -/

/-- One shift step of the inner loop of `_crc16_ccitt`:
shift left, conditionally XOR the polynomial `0x1021`, mask to 16 bits. -/
def crcShift (crc : Nat) : Nat :=
  (if crc &&& 0x8000 ≠ 0 then (crc <<< 1) ^^^ 0x1021 else crc <<< 1) &&& 0xFFFF

/-- `n` iterations of `crcShift` (the source's `for _ in range(8)`). -/
def crcRounds : Nat → Nat → Nat
  | 0, c => c
  | n + 1, c => crcRounds n (crcShift c)

/-- `_crc16_ccitt(data)`: register starts at `0xFFFF`; each byte is XORed
into the high 8 bits and followed by 8 shift steps. -/
def _crc16_ccitt (data : List Nat) : Nat :=
  data.foldl (fun crc b => crcRounds 8 (crc ^^^ (b <<< 8))) 0xFFFF

/-! ## TLV composer (`_emv_kv`) and payload assembly (`build_pix_payload`) -/

/-- `_emv_kv(_id, value) = f"{_id}{len(value):02d}{value}"`.  Total: the
length is rendered with `%02d`, which pads to two digits for lengths up to
99 and silently emits three or more digits beyond that. -/
def _emv_kv (i value : List Char) : List Char :=
  i ++ fmt02d value.length ++ value

/-- Python string truthiness fallback `s or d`. -/
def pyOr (s d : List Char) : List Char := if s = [] then d else s

/-- `f"{amount.quantize(MONEY_Q)}"`: the quantized amount (exponent `-2`)
printed as a plain decimal string with exactly two fractional digits,
a leading `-` when negative. -/
def renderQuant2 (a : ℚ) : List Char :=
  let n : ℤ := rhe (100 * a)
  let m : Nat := n.natAbs
  (if n < 0 then ['-'] else []) ++ decRep (m / 100) ++ '.' :: [digitChar (m / 10 % 10), digitChar (m % 10)]

/-- The tag-"54" amount fragment:
`_emv_kv("54", f"{amount.quantize(MONEY_Q)}") if amount and amount > 0 else ""`.
A `None` amount and a zero amount are both falsy in Python, so the field is
emitted exactly when an amount is supplied and strictly positive. -/
def amtFragment (amount : Option ℚ) : List Char :=
  match amount with
  | none => []
  | some a => if 0 < a then _emv_kv "54".data (renderQuant2 a) else []

/-- The concatenation of the nine emitted fields of `build_pix_payload`, in
the source's order: `pfi + mai + mcc + cur + amt + cty + mname + mcity + add`
(the local variables of the non-empty branch of the source function). -/
def pixNineFields (key merchant_name merchant_city : List Char)
    (amount : Option ℚ) (txid : List Char) : List Char :=
  let gui := _emv_kv "00".data "BR.GOV.BCB.PIX".data
  let acc := gui ++ _emv_kv "01".data key
  let mai := _emv_kv "26".data acc
  let pfi := _emv_kv "00".data "01".data
  let mcc := _emv_kv "52".data "0000".data
  let cur := _emv_kv "53".data "986".data
  let amt := amtFragment amount
  let cty := _emv_kv "58".data "BR".data
  let mname := _emv_kv "59".data (pyOr (merchant_name.take 25) "LOJA".data)
  let mcity := _emv_kv "60".data (pyOr (merchant_city.take 15) "CIDADE".data)
  let tx := _emv_kv "05".data (txid.take 25)
  let add := _emv_kv "62".data tx
  pfi ++ mai ++ mcc ++ cur ++ amt ++ cty ++ mname ++ mcity ++ add

/-- The source's `partial` string: the nine fields followed by the literal
checksum-field tag+length `"6304"`. -/
def pixBody (key merchant_name merchant_city : List Char)
    (amount : Option ℚ) (txid : List Char) : List Char :=
  pixNineFields key merchant_name merchant_city amount txid ++ "6304".data

/-- `build_pix_payload(key, merchant_name, merchant_city, amount, txid)`.
Returns `""` when `key`, `merchant_name` or `merchant_city` is empty;
otherwise emits the source's `partial` string followed by the CRC of its
UTF-8 bytes rendered with `f"{crc:04X}"`. -/
def build_pix_payload (key merchant_name merchant_city : List Char)
    (amount : Option ℚ) (txid : List Char) : List Char :=
  if key = [] ∨ merchant_name = [] ∨ merchant_city = [] then []
  else
    pixBody key merchant_name merchant_city amount txid ++
      fmt04X (_crc16_ccitt (utf8Str (pixBody key merchant_name merchant_city amount txid)))

/-! ## Monetary text parsing (`to_decimal`) -/

/-- A Python `decimal.Decimal` value as produced by the constructor: a finite
exact value, `NaN` / `sNaN` (sign and diagnostic payload abstracted away), or
a signed infinity. -/
inductive PyDecimal where
  | fin (q : ℚ)
  | nan
  | snan
  | inf (neg : Bool)
deriving DecidableEq

/-- ASCII whitespace for `str.strip()` (the inputs this core receives are
ASCII-range text; the further Unicode space code points Python also strips
never occur in them). -/
def isPySpace (c : Char) : Bool :=
  c = ' ' || c = '\t' || c = '\n' || c = '\r' || c = '\x0B' || c = '\x0C'

/-- `s.strip()`: remove leading and trailing whitespace. -/
def pyStrip (l : List Char) : List Char :=
  ((l.dropWhile isPySpace).reverse.dropWhile isPySpace).reverse

/-- Natural number denoted by a list of ASCII digits (`0` for `[]`). -/
def digitsNat (l : List Char) : ℕ :=
  l.foldl (fun a c => 10 * a + (c.toNat - 48)) 0

/-- The exponent written after the `e`/`E` indicator of a decimal literal:
an optional sign followed by at least one digit. -/
def expValue : List Char → Option ℤ
  | [] => none
  | '+' :: r => if r ≠ [] ∧ r.all Char.isDigit then some (digitsNat r) else none
  | '-' :: r => if r ≠ [] ∧ r.all Char.isDigit then some (-(digitsNat r : ℤ)) else none
  | r => if r.all Char.isDigit then some ((digitsNat r : ℤ)) else none

/-- Unsigned finite part of the decimal-literal grammar accepted by the
`Decimal` constructor: `digits ['.' [digits]] | '.' digits`, optionally
followed by an exponent part; at least one digit must be present. -/
def sigExp (l : List Char) : Option ℚ :=
  let ip := l.takeWhile Char.isDigit
  let rest := l.dropWhile Char.isDigit
  match rest with
  | [] => if ip = [] then none else some (digitsNat ip : ℚ)
  | '.' :: r2 =>
    let fp := r2.takeWhile Char.isDigit
    let r3 := r2.dropWhile Char.isDigit
    if ip = [] ∧ fp = [] then none
    else
      match r3 with
      | [] => some ((digitsNat ip : ℚ) + (digitsNat fp : ℚ) / 10 ^ fp.length)
      | c :: r4 =>
        if c = 'e' ∨ c = 'E' then
          (expValue r4).map fun e =>
            ((digitsNat ip : ℚ) + (digitsNat fp : ℚ) / 10 ^ fp.length) * 10 ^ e
        else none
  | c :: r2 =>
    if (c = 'e' ∨ c = 'E') ∧ ip ≠ [] then
      (expValue r2).map fun e => (digitsNat ip : ℚ) * 10 ^ e
    else none

/-- The sign-stripped alternatives of the numeric-string grammar:
`Inf`/`Infinity`, `NaN`/`sNaN` with optional diagnostic digits (all
case-insensitive), or a finite literal. -/
def parseSignless (l : List Char) (neg : Bool) : Option PyDecimal :=
  let low := l.map Char.toLower
  if low = "inf".data ∨ low = "infinity".data then some (.inf neg)
  else if low.take 3 = "nan".data ∧ (low.drop 3).all Char.isDigit then some .nan
  else if low.take 4 = "snan".data ∧ (low.drop 4).all Char.isDigit then some .snan
  else (sigExp l).map fun q => .fin (if neg then -q else q)

/-- `Decimal(s)` on an already-stripped string: underscores are removed
(CPython strips grouping underscores before matching the grammar), an
optional leading sign is split off, and the rest must match the
numeric-string grammar; `none` models the `InvalidOperation` the
constructor raises otherwise. -/
def pyDecimalOfString (l : List Char) : Option PyDecimal :=
  let s := l.filter fun c => c ≠ '_'
  match s with
  | '+' :: r => parseSignless r false
  | '-' :: r => parseSignless r true
  | r => parseSignless r false

/-- `to_decimal(x)` for text input:
`s = str(x).replace(",", ".").strip()`; empty `s` yields `Decimal("0")`,
otherwise `Decimal(s)` (whose failure, `InvalidOperation`, is `none`). -/
def to_decimal (x : List Char) : Option PyDecimal :=
  let s := pyStrip (x.map fun c => if c = ',' then '.' else c)
  if s = [] then some (.fin 0) else pyDecimalOfString s

/-! ## Spec-side definitions (for comparison with the code) -/

/-- Modelled from the spec: `derive_sale_price(cost, margin_pct)` as §4.2
words it, `quantize(cost * (1 + margin_pct/100))` with the spec's
round-half-up rule. -/
def derive_sale_price_spec (cost margin : ℚ) : ℚ :=
  quantHU (cost * (1 + margin / 100))

/-- Modelled from the spec (§4.3/§4.5): the two-stage composer — a list of
`(tag, value)` fields rendered by the TLV primitive in list order, the
literal checksum prefix `"6304"`, then the CRC of the UTF-8 bytes rendered
as four uppercase hex digits. -/
def assemble (fields : List (List Char × List Char)) : List Char :=
  let body := (fields.map fun f => _emv_kv f.1 f.2).flatten ++ "6304".data
  body ++ fmt04X (_crc16_ccitt (utf8Str body))

/-- The `(tag, value)` schema of the payload as the code emits it: tag "00"
first, then "26", "52", "53", the optional "54", "58", "59", "60", "62". -/
def pixFields (key merchant_name merchant_city : List Char)
    (amount : Option ℚ) (txid : List Char) : List (List Char × List Char) :=
  [("00".data, "01".data),
   ("26".data, _emv_kv "00".data "BR.GOV.BCB.PIX".data ++ _emv_kv "01".data key),
   ("52".data, "0000".data),
   ("53".data, "986".data)] ++
  (match amount with
   | none => []
   | some a => if 0 < a then [("54".data, renderQuant2 a)] else []) ++
  [("58".data, "BR".data),
   ("59".data, pyOr (merchant_name.take 25) "LOJA".data),
   ("60".data, pyOr (merchant_city.take 15) "CIDADE".data),
   ("62".data, _emv_kv "05".data (txid.take 25))]

/-- The tag of the optional amount field, present exactly when a strictly
positive amount is supplied. -/
def amtTags (amount : Option ℚ) : List (List Char) :=
  match amount with
  | none => []
  | some a => if 0 < a then ["54".data] else []

/-! ## Rounding lemmas -/

lemma rhe_sub_abs_le (q : ℚ) : |(rhe q : ℚ) - q| ≤ 1 / 2 := by
  have h1 : (⌊q⌋ : ℚ) ≤ q := Int.floor_le q
  have h2 : q < ⌊q⌋ + 1 := Int.lt_floor_add_one q
  unfold rhe
  split_ifs <;> rw [abs_sub_le_iff] <;> constructor <;> push_cast <;> linarith

lemma rhe_tie_even (q : ℚ) (h : |(rhe q : ℚ) - q| = 1 / 2) : rhe q % 2 = 0 := by
  have h1 : (⌊q⌋ : ℚ) ≤ q := Int.floor_le q
  have h2 : q < ⌊q⌋ + 1 := Int.lt_floor_add_one q
  have habs : ∀ x : ℚ, |x| = 1 / 2 → x = 1 / 2 ∨ x = -(1 / 2) := by
    intro x hx
    rcases abs_cases x with ⟨h3, _⟩ | ⟨h3, _⟩
    · exact Or.inl (h3 ▸ hx)
    · exact Or.inr (by linarith [h3 ▸ hx])
  unfold rhe at h ⊢
  split_ifs at h ⊢ with ha hb hc
  · rcases habs _ h with h4 | h4 <;> linarith
  · rcases habs _ h with h4 | h4 <;> push_cast at h4 <;> linarith
  · exact hc
  · have hodd : ⌊q⌋ % 2 = 1 := by omega
    omega

lemma rhe_intCast (z : ℤ) : rhe (z : ℚ) = z := by
  unfold rhe
  rw [Int.floor_intCast]
  norm_num

lemma rhe_eq_of_near (q : ℚ) (z : ℤ) (h : |(z : ℚ) - q| < 1 / 2) : rhe q = z := by
  have h1 := rhe_sub_abs_le q
  have h2 : |((rhe q - z : ℤ) : ℚ)| < 1 := by
    push_cast
    calc |(rhe q : ℚ) - z| = |((rhe q : ℚ) - q) - ((z : ℚ) - q)| := by ring_nf
    _ ≤ |(rhe q : ℚ) - q| + |(z : ℚ) - q| := abs_sub _ _
    _ < 1 := by linarith
  have h3 : |rhe q - z| < 1 := by exact_mod_cast h2
  have h4 : rhe q - z = 0 := Int.abs_lt_one_iff.mp h3
  omega

lemma rhe_eq_of_tie (q : ℚ) (z : ℤ) (h : q - z = 1 / 2) (he : z % 2 = 0) : rhe q = z := by
  have hf : ⌊q⌋ = z := by
    rw [Int.floor_eq_iff]
    constructor <;> push_cast <;> linarith
  unfold rhe
  rw [hf]
  rw [if_neg (by linarith), if_neg (by linarith), if_pos he]

lemma rhu_intCast (z : ℤ) : rhu (z : ℚ) = z := by
  unfold rhu
  rw [Int.floor_intCast]
  norm_num

lemma rhu_eq_of_tie_nonneg (q : ℚ) (z : ℤ) (h : q - z = 1 / 2) (h0 : 0 ≤ q) :
    rhu q = z + 1 := by
  have hf : ⌊q⌋ = z := by
    rw [Int.floor_eq_iff]
    constructor <;> push_cast <;> linarith
  unfold rhu
  rw [hf]
  rw [if_neg (by linarith), if_neg (by linarith), if_pos h0]

lemma quantHE_eq_int (q : ℚ) (n : ℤ) (h : 100 * q = (n : ℚ)) :
    quantHE q = (n : ℚ) / 100 := by
  unfold quantHE
  rw [h, rhe_intCast]

lemma quantHU_eq_int (q : ℚ) (n : ℤ) (h : 100 * q = (n : ℚ)) :
    quantHU q = (n : ℚ) / 100 := by
  unfold quantHU
  rw [h, rhu_intCast]

/-! ## CRC register bound -/

lemma crcShift_lt (c : Nat) : crcShift c < 65536 := by
  have h : crcShift c ≤ 0xFFFF := Nat.and_le_right
  omega

lemma crcRounds_lt (n c : Nat) (h : 0 < n) : crcRounds n c < 65536 := by
  induction n generalizing c with
  | zero => omega
  | succ m ih =>
    cases m with
    | zero => simpa [crcRounds] using crcShift_lt c
    | succ k => simpa [crcRounds] using ih (crcShift c) (Nat.succ_pos k)

/-! ## Payload structure lemmas -/

lemma fmt04X_length (n : Nat) : (fmt04X n).length = 4 := rfl

lemma take_ne_nil_of_ne_nil (l : List Char) (n : ℕ) (hn : n ≠ 0) (h : l ≠ []) :
    l.take n ≠ [] := by
  cases l with
  | nil => exact absurd rfl h
  | cons a t =>
    cases n with
    | zero => exact absurd rfl hn
    | succ m => simp

lemma build_pix_payload_pos (key name city : List Char) (amount : Option ℚ)
    (tx : List Char) (h : ¬(key = [] ∨ name = [] ∨ city = [])) :
    build_pix_payload key name city amount tx =
      pixBody key name city amount tx ++
        fmt04X (_crc16_ccitt (utf8Str (pixBody key name city amount tx))) := by
  unfold build_pix_payload
  rw [if_neg h]

lemma pixBody_eq_flatten (key name city : List Char) (amount : Option ℚ)
    (tx : List Char) :
    pixBody key name city amount tx =
      ((pixFields key name city amount tx).map fun f => _emv_kv f.1 f.2).flatten ++
        "6304".data := by
  unfold pixBody pixNineFields pixFields amtFragment
  cases amount with
  | none => simp [List.append_assoc]
  | some a => by_cases h : 0 < a <;> simp [h, List.append_assoc]

lemma build_eq_assemble (key name city : List Char) (amount : Option ℚ)
    (tx : List Char) (h : ¬(key = [] ∨ name = [] ∨ city = [])) :
    build_pix_payload key name city amount tx =
      assemble (pixFields key name city amount tx) := by
  rw [build_pix_payload_pos key name city amount tx h]
  unfold assemble
  rw [← pixBody_eq_flatten]

lemma pixFields_map_fst (key name city : List Char) (amount : Option ℚ)
    (tx : List Char) :
    (pixFields key name city amount tx).map Prod.fst =
      ["00".data, "26".data, "52".data, "53".data] ++ amtTags amount ++
        ["58".data, "59".data, "60".data, "62".data] := by
  unfold pixFields amtTags
  cases amount with
  | none => simp
  | some a => by_cases h : 0 < a <;> simp [h]

/-! ## CRC register bound -/

lemma crc16_lt (data : List Nat) : _crc16_ccitt data < 65536 := by
  unfold _crc16_ccitt
  have key : ∀ (l : List Nat) (c : Nat), c < 65536 →
      l.foldl (fun crc b => crcRounds 8 (crc ^^^ (b <<< 8))) c < 65536 := by
    intro l
    induction l with
    | nil => intro c hc; simpa using hc
    | cons b t ih =>
      intro c _
      simpa using ih (crcRounds 8 (c ^^^ (b <<< 8))) (crcRounds_lt 8 _ (by omega))
  exact key data 0xFFFF (by omega)

/-! ## Strip lemmas for `to_decimal` -/

lemma pyStrip_space_left (l : List Char) : pyStrip (' ' :: l) = pyStrip l := by
  unfold pyStrip
  simp [List.dropWhile_cons, isPySpace]

lemma pyStrip_space_right (l : List Char) : pyStrip (l ++ [' ']) = pyStrip l := by
  unfold pyStrip
  rw [List.dropWhile_append]
  by_cases h : (List.dropWhile isPySpace l).isEmpty
  · rw [if_pos h, List.isEmpty_iff.mp h]
    decide
  · rw [if_neg h]
    simp [List.reverse_append, List.dropWhile_cons, isPySpace]

/-! ## Claim theorems -/

/-- C2: for every call to `build_pix_payload` with non-empty key, merchant
name and merchant city, the last 4 characters of the returned string are the
CRC-16/CCITT-FALSE of the UTF-8 bytes of all preceding characters, rendered
as 4 uppercase zero-padded hex digits, and those preceding characters end
with the literal `"6304"`. -/
theorem C2_checksum (key name city : List Char) (amount : Option ℚ)
    (tx : List Char) (hk : key ≠ []) (hn : name ≠ []) (hc : city ≠ []) :
    4 ≤ (build_pix_payload key name city amount tx).length ∧
    (build_pix_payload key name city amount tx).drop
        ((build_pix_payload key name city amount tx).length - 4) =
      fmt04X (_crc16_ccitt (utf8Str ((build_pix_payload key name city amount tx).take
        ((build_pix_payload key name city amount tx).length - 4)))) ∧
    ((build_pix_payload key name city amount tx).take
        ((build_pix_payload key name city amount tx).length - 4)).drop
        ((build_pix_payload key name city amount tx).length - 8) = "6304".data := by
  have hg : ¬(key = [] ∨ name = [] ∨ city = []) := by
    push_neg
    exact ⟨hk, hn, hc⟩
  rw [build_pix_payload_pos key name city amount tx hg]
  have hlen : (pixBody key name city amount tx ++
      fmt04X (_crc16_ccitt (utf8Str (pixBody key name city amount tx)))).length =
      (pixBody key name city amount tx).length + 4 := by
    rw [List.length_append, fmt04X_length]
  have h4 : (pixBody key name city amount tx ++
      fmt04X (_crc16_ccitt (utf8Str (pixBody key name city amount tx)))).length - 4 =
      (pixBody key name city amount tx).length := by omega
  rw [h4, List.take_left, List.drop_left]
  have hbody : pixBody key name city amount tx =
      pixNineFields key name city amount tx ++ "6304".data := rfl
  have h6304 : ("6304".data : List Char).length = 4 := rfl
  have h8 : (pixBody key name city amount tx ++
      fmt04X (_crc16_ccitt (utf8Str (pixBody key name city amount tx)))).length - 8 =
      (pixNineFields key name city amount tx).length := by
    rw [hlen, hbody, List.length_append, h6304]
    omega
  refine ⟨by rw [hlen]; omega, rfl, ?_⟩
  rw [h8, hbody, List.drop_left]

/-- Witness for C2 at `key="k"`, `name="N"`, `city="C"`, no amount,
`txid="T"`. -/
theorem C2_checksum_witness :
    ("k".data ≠ ([] : List Char)) ∧ ("N".data ≠ ([] : List Char)) ∧
    ("C".data ≠ ([] : List Char)) ∧
    (4 ≤ (build_pix_payload "k".data "N".data "C".data none "T".data).length ∧
     (build_pix_payload "k".data "N".data "C".data none "T".data).drop
        ((build_pix_payload "k".data "N".data "C".data none "T".data).length - 4) =
      fmt04X (_crc16_ccitt (utf8Str
        ((build_pix_payload "k".data "N".data "C".data none "T".data).take
          ((build_pix_payload "k".data "N".data "C".data none "T".data).length - 4)))) ∧
     ((build_pix_payload "k".data "N".data "C".data none "T".data).take
        ((build_pix_payload "k".data "N".data "C".data none "T".data).length - 4)).drop
        ((build_pix_payload "k".data "N".data "C".data none "T".data).length - 8) =
       "6304".data) :=
  ⟨by decide, by decide, by decide,
   C2_checksum "k".data "N".data "C".data none "T".data (by decide) (by decide)
     (by decide)⟩

set_option maxRecDepth 10000 in
/-- C3: `_crc16_ccitt` is a pure function of its input bytes whose result
fits in 16 bits, and it meets the CRC-16/CCITT-FALSE test vector
`crc16(b"123456789") = 0x29B1`. -/
theorem C3_crc16_props :
    _crc16_ccitt (utf8Str "123456789".data) = 0x29B1 ∧
    ∀ data : List Nat, _crc16_ccitt data < 2 ^ 16 :=
  ⟨by decide, fun data => by simpa using crc16_lt data⟩

/-- C1 (amended): for non-empty inputs the payload is exactly the two-stage
assembly of the field schema, whose tag order as the code emits it is
"00" (point of initiation) FIRST, then "26" (merchant account), "52", "53",
the optional "54", "58", "59", "60", "62", then the checksum field — i.e.
the claim's order with the first two fields swapped. -/
theorem C1_field_order_amended (key name city : List Char) (amount : Option ℚ)
    (tx : List Char) (hk : key ≠ []) (hn : name ≠ []) (hc : city ≠ []) :
    build_pix_payload key name city amount tx =
      assemble (pixFields key name city amount tx) ∧
    (pixFields key name city amount tx).map Prod.fst =
      ["00".data, "26".data, "52".data, "53".data] ++ amtTags amount ++
        ["58".data, "59".data, "60".data, "62".data] := by
  have hg : ¬(key = [] ∨ name = [] ∨ city = []) := by
    push_neg
    exact ⟨hk, hn, hc⟩
  exact ⟨build_eq_assemble key name city amount tx hg,
    pixFields_map_fst key name city amount tx⟩

/-- Witness for C1 (amended) at `key="k"`, `name="N"`, `city="C"`, no
amount, `txid="T"`. -/
theorem C1_field_order_witness :
    ("k".data ≠ ([] : List Char)) ∧ ("N".data ≠ ([] : List Char)) ∧
    ("C".data ≠ ([] : List Char)) ∧
    (build_pix_payload "k".data "N".data "C".data none "T".data =
      assemble (pixFields "k".data "N".data "C".data none "T".data) ∧
    (pixFields "k".data "N".data "C".data none "T".data).map Prod.fst =
      ["00".data, "26".data, "52".data, "53".data] ++ amtTags none ++
        ["58".data, "59".data, "60".data, "62".data]) :=
  ⟨by decide, by decide, by decide,
   C1_field_order_amended "k".data "N".data "C".data none "T".data (by decide)
     (by decide) (by decide)⟩

/-- C1 counterexample: at `key="k"`, `name="N"`, `city="C"`, no amount,
`txid="T"` the payload is non-empty, yet it is not the assembly in the
claim's stated order (merchant-account field "26" preceding the
point-of-initiation field "00"): the code emits "00" first. -/
theorem C1_field_order_counterexample :
    build_pix_payload "k".data "N".data "C".data none "T".data ≠ [] ∧
    build_pix_payload "k".data "N".data "C".data none "T".data ≠
      assemble
        [("26".data, _emv_kv "00".data "BR.GOV.BCB.PIX".data ++
            _emv_kv "01".data "k".data),
         ("00".data, "01".data), ("52".data, "0000".data),
         ("53".data, "986".data), ("58".data, "BR".data),
         ("59".data, "N".data), ("60".data, "C".data),
         ("62".data, _emv_kv "05".data "T".data)] := by
  constructor
  · intro h
    exact absurd (congrArg (List.take 1) h) (by decide)
  · intro h
    exact absurd (congrArg (List.take 2) h) (by decide)

/-- C8: with non-empty payee data, the payload is the assembly of the field
schema, the schema carries a "54" field with value
`f"{amount.quantize(MONEY_Q)}"` exactly when a strictly positive amount is
supplied, and carries no "54" field at all when the amount is absent, zero
or negative. -/
theorem C8_amount_field (key name city : List Char) (amount : Option ℚ)
    (tx : List Char) (hk : key ≠ []) (hn : name ≠ []) (hc : city ≠ []) :
    build_pix_payload key name city amount tx =
      assemble (pixFields key name city amount tx) ∧
    (∀ a : ℚ, amount = some a → 0 < a →
      ("54".data, renderQuant2 a) ∈ pixFields key name city amount tx) ∧
    (amount = none →
      ∀ v : List Char, ("54".data, v) ∉ pixFields key name city amount tx) ∧
    (∀ a : ℚ, amount = some a → a ≤ 0 →
      ∀ v : List Char, ("54".data, v) ∉ pixFields key name city amount tx) := by
  have hg : ¬(key = [] ∨ name = [] ∨ city = []) := by
    push_neg
    exact ⟨hk, hn, hc⟩
  refine ⟨build_eq_assemble key name city amount tx hg, ?_, ?_, ?_⟩
  · rintro a rfl ha
    simp only [pixFields]
    rw [if_pos ha]
    simp
  · rintro rfl v hmem
    have h54 : "54".data ∈ (pixFields key name city none tx).map Prod.fst :=
      List.mem_map_of_mem Prod.fst hmem
    rw [pixFields_map_fst] at h54
    exact absurd h54 (by decide)
  · rintro a rfl ha v hmem
    have h54 : "54".data ∈ (pixFields key name city (some a) tx).map Prod.fst :=
      List.mem_map_of_mem Prod.fst hmem
    rw [pixFields_map_fst] at h54
    have hempty : amtTags (some a) = [] := by
      simp only [amtTags]
      rw [if_neg (not_lt.2 ha)]
    rw [hempty] at h54
    exact absurd h54 (by decide)

/-- Witness for C8 at `key="k"`, `name="N"`, `city="C"`, amount `5`,
`txid="T"`. -/
theorem C8_amount_field_witness :
    ("k".data ≠ ([] : List Char)) ∧ ("N".data ≠ ([] : List Char)) ∧
    ("C".data ≠ ([] : List Char)) ∧
    (build_pix_payload "k".data "N".data "C".data (some (5 : ℚ)) "T".data =
      assemble (pixFields "k".data "N".data "C".data (some (5 : ℚ)) "T".data) ∧
    (∀ a : ℚ, (some (5 : ℚ)) = some a → 0 < a →
      ("54".data, renderQuant2 a) ∈
        pixFields "k".data "N".data "C".data (some (5 : ℚ)) "T".data) ∧
    ((some (5 : ℚ)) = none → ∀ v : List Char,
      ("54".data, v) ∉ pixFields "k".data "N".data "C".data (some (5 : ℚ)) "T".data) ∧
    (∀ a : ℚ, (some (5 : ℚ)) = some a → a ≤ 0 → ∀ v : List Char,
      ("54".data, v) ∉ pixFields "k".data "N".data "C".data (some (5 : ℚ)) "T".data)) :=
  ⟨by decide, by decide, by decide,
   C8_amount_field "k".data "N".data "C".data (some (5 : ℚ)) "T".data (by decide)
     (by decide) (by decide)⟩

/-- C10: for non-empty inputs, the merchant-name field value is exactly the
first 25 characters of the name and the merchant-city field value exactly
the first 15 characters of the city — the placeholder fallbacks `"LOJA"`
and `"CIDADE"` are never used, because truncating a non-empty string yields
a non-empty string — and the payload is the (non-empty) assembly of the
schema carrying those values. -/
theorem C10_truncation (key name city : List Char) (amount : Option ℚ)
    (tx : List Char) (hk : key ≠ []) (hn : name ≠ []) (hc : city ≠ []) :
    pyOr (name.take 25) "LOJA".data = name.take 25 ∧
    pyOr (city.take 15) "CIDADE".data = city.take 15 ∧
    ("59".data, name.take 25) ∈ pixFields key name city amount tx ∧
    ("60".data, city.take 15) ∈ pixFields key name city amount tx ∧
    build_pix_payload key name city amount tx =
      assemble (pixFields key name city amount tx) ∧
    build_pix_payload key name city amount tx ≠ [] := by
  have hg : ¬(key = [] ∨ name = [] ∨ city = []) := by
    push_neg
    exact ⟨hk, hn, hc⟩
  have hname : pyOr (name.take 25) "LOJA".data = name.take 25 := by
    unfold pyOr
    rw [if_neg (take_ne_nil_of_ne_nil name 25 (by omega) hn)]
  have hcity : pyOr (city.take 15) "CIDADE".data = city.take 15 := by
    unfold pyOr
    rw [if_neg (take_ne_nil_of_ne_nil city 15 (by omega) hc)]
  refine ⟨hname, hcity, ?_, ?_, build_eq_assemble key name city amount tx hg, ?_⟩
  · rw [← hname]
    unfold pixFields
    exact List.mem_append_right _ (by simp)
  · rw [← hcity]
    unfold pixFields
    exact List.mem_append_right _ (by simp)
  · rw [build_pix_payload_pos key name city amount tx hg]
    have hpos : 0 < (pixBody key name city amount tx ++
        fmt04X (_crc16_ccitt (utf8Str (pixBody key name city amount tx)))).length := by
      rw [List.length_append, fmt04X_length]
      omega
    exact List.length_pos.mp hpos

/-- C4 counterexample: at cost `0.05` and margin `-50` the code's derived
sale price is `0.02` (the quantize call uses the default `ROUND_HALF_EVEN`),
while the claim's round-half-up rule demands `0.03`. -/
theorem C4_sale_price_counterexample :
    upsert_sale_price (5 / 100) (-50) = 2 / 100 ∧
    derive_sale_price_spec (5 / 100) (-50) = 3 / 100 ∧
    (2 / 100 : ℚ) ≠ 3 / 100 := by
  have harg : (100 : ℚ) * ((5 / 100) * (1 + (-50) / 100)) = ((5 : ℚ) / 2) := by
    norm_num
  refine ⟨?_, ?_, by norm_num⟩
  · unfold upsert_sale_price quantHE
    rw [harg, rhe_eq_of_tie ((5 : ℚ) / 2) 2 (by norm_num) (by decide)]
    norm_num
  · unfold derive_sale_price_spec quantHU
    rw [harg, rhu_eq_of_tie_nonneg ((5 : ℚ) / 2) 2 (by norm_num) (by norm_num)]
    norm_num

/-- C4 (amended): for every non-negative exact 2-decimal cost `c/100` and
every margin, the derived sale price is `cost * (1 + margin/100)` rounded
once, at the end, to a multiple of `0.01` — by round-half-EVEN (the Python
`decimal` default), not round-half-up: the result is within half a cent of
the exact value, and at an exact tie the chosen cent count is even. -/
theorem C4_sale_price_amended (c : ℕ) (margin : ℚ) :
    ∃ n : ℤ, upsert_sale_price ((c : ℚ) / 100) margin = (n : ℚ) / 100 ∧
      |(n : ℚ) / 100 - ((c : ℚ) / 100) * (1 + margin / 100)| ≤ 1 / 200 ∧
      (|(n : ℚ) / 100 - ((c : ℚ) / 100) * (1 + margin / 100)| = 1 / 200 →
        n % 2 = 0) := by
  have h100 : (0 : ℚ) < 100 := by norm_num
  refine ⟨rhe (100 * (((c : ℚ) / 100) * (1 + margin / 100))), rfl, ?_, ?_⟩
  · have hmain := rhe_sub_abs_le (100 * (((c : ℚ) / 100) * (1 + margin / 100)))
    have heq : (rhe (100 * (((c : ℚ) / 100) * (1 + margin / 100))) : ℚ) / 100 -
        ((c : ℚ) / 100) * (1 + margin / 100) =
        ((rhe (100 * (((c : ℚ) / 100) * (1 + margin / 100))) : ℚ) -
          100 * (((c : ℚ) / 100) * (1 + margin / 100))) / 100 := by
      ring
    rw [heq, abs_div, abs_of_pos h100]
    linarith
  · intro htie
    apply rhe_tie_even (100 * (((c : ℚ) / 100) * (1 + margin / 100)))
    have heq : (rhe (100 * (((c : ℚ) / 100) * (1 + margin / 100))) : ℚ) / 100 -
        ((c : ℚ) / 100) * (1 + margin / 100) =
        ((rhe (100 * (((c : ℚ) / 100) * (1 + margin / 100))) : ℚ) -
          100 * (((c : ℚ) / 100) * (1 + margin / 100))) / 100 := by
      ring
    rw [heq, abs_div, abs_of_pos h100] at htie
    linarith

/-- Witness for C4 (amended) at cost `0.05` and margin `-50`. -/
theorem C4_sale_price_witness :
    ∃ n : ℤ, upsert_sale_price (((5 : ℕ) : ℚ) / 100) (-50) = (n : ℚ) / 100 ∧
      |(n : ℚ) / 100 - (((5 : ℕ) : ℚ) / 100) * (1 + (-50) / 100)| ≤ 1 / 200 ∧
      (|(n : ℚ) / 100 - (((5 : ℕ) : ℚ) / 100) * (1 + (-50) / 100)| = 1 / 200 →
        n % 2 = 0) :=
  C4_sale_price_amended 5 (-50)

/-- C5: for exact 2-decimal unit price `np/100` and unit cost `nu/100` and
positive integer quantity, the line-totals core returns exactly
`(P*Q, (P-U)*Q)`, which also coincide with the claim's round-half-up
quantization of those products (the products are already exact multiples of
`0.01`, so quantization is the identity and rounds only once, at the end). -/
theorem C5_line_totals (np nu q : ℤ) (hq : 0 < q) :
    add_item_totals ((np : ℚ) / 100) ((nu : ℚ) / 100) q =
      (((np * q : ℤ) : ℚ) / 100, (((np - nu) * q : ℤ) : ℚ) / 100) ∧
    add_item_totals ((np : ℚ) / 100) ((nu : ℚ) / 100) q =
      (quantHU (((np : ℚ) / 100) * (q : ℚ)),
       quantHU ((((np : ℚ) / 100) - ((nu : ℚ) / 100)) * (q : ℚ))) := by
  have h1 : (100 : ℚ) * (((np : ℚ) / 100) * (q : ℚ)) = ((np * q : ℤ) : ℚ) := by
    push_cast
    ring
  have h2 : (100 : ℚ) * ((((np : ℚ) / 100) - ((nu : ℚ) / 100)) * (q : ℚ)) =
      (((np - nu) * q : ℤ) : ℚ) := by
    push_cast
    ring
  constructor
  · unfold add_item_totals
    rw [quantHE_eq_int _ _ h1, quantHE_eq_int _ _ h2]
  · unfold add_item_totals
    rw [quantHE_eq_int _ _ h1, quantHE_eq_int _ _ h2,
        quantHU_eq_int _ _ h1, quantHU_eq_int _ _ h2]

/-- Witness for C5 at unit price `3.50`, unit cost `2.00`, quantity `3`. -/
theorem C5_line_totals_witness :
    ((0 : ℤ) < 3) ∧
    (add_item_totals (((350 : ℤ) : ℚ) / 100) (((200 : ℤ) : ℚ) / 100) 3 =
      ((((350 : ℤ) * 3 : ℤ) : ℚ) / 100, ((((350 : ℤ) - 200) * 3 : ℤ) : ℚ) / 100) ∧
    add_item_totals (((350 : ℤ) : ℚ) / 100) (((200 : ℤ) : ℚ) / 100) 3 =
      (quantHU ((((350 : ℤ) : ℚ) / 100) * ((3 : ℤ) : ℚ)),
       quantHU (((((350 : ℤ) : ℚ) / 100) - (((200 : ℤ) : ℚ) / 100)) * ((3 : ℤ) : ℚ)))) :=
  ⟨by decide, C5_line_totals 350 200 3 (by decide)⟩

/-- C6 (amended): for every quantity `q ≤ 0` the line-totals code does NOT
fail — it performs no quantity validation at all and returns the exact pair
`(P*Q, (P-U)*Q)` (there is no `InvalidQuantity` error anywhere in the
source). -/
theorem C6_no_quantity_validation (np nu q : ℤ) (hq : q ≤ 0) :
    add_item_totals ((np : ℚ) / 100) ((nu : ℚ) / 100) q =
      (((np * q : ℤ) : ℚ) / 100, (((np - nu) * q : ℤ) : ℚ) / 100) := by
  have h1 : (100 : ℚ) * (((np : ℚ) / 100) * (q : ℚ)) = ((np * q : ℤ) : ℚ) := by
    push_cast
    ring
  have h2 : (100 : ℚ) * ((((np : ℚ) / 100) - ((nu : ℚ) / 100)) * (q : ℚ)) =
      (((np - nu) * q : ℤ) : ℚ) := by
    push_cast
    ring
  unfold add_item_totals
  rw [quantHE_eq_int _ _ h1, quantHE_eq_int _ _ h2]

/-- Witness for C6 (amended) at unit price `1.50`, unit cost `1.00`,
quantity `0`. -/
theorem C6_no_quantity_validation_witness :
    ((0 : ℤ) ≤ 0) ∧
    add_item_totals (((150 : ℤ) : ℚ) / 100) (((100 : ℤ) : ℚ) / 100) 0 =
      ((((150 : ℤ) * 0 : ℤ) : ℚ) / 100, ((((150 : ℤ) - 100) * 0 : ℤ) : ℚ) / 100) :=
  ⟨by decide, C6_no_quantity_validation 150 100 0 (by decide)⟩

/-- C6 counterexample: at unit price `1.50`, unit cost `1.00` and quantity
`0` the code returns the result `(0.00, 0.00)` — it does not fail with an
`InvalidQuantity` error as the claim states. -/
theorem C6_quantity_counterexample :
    add_item_totals (150 / 100) (100 / 100) 0 = (0, 0) := by
  have h1 : (100 : ℚ) * ((150 / 100 : ℚ) * ((0 : ℤ) : ℚ)) = ((0 : ℤ) : ℚ) := by
    norm_num
  have h2 : (100 : ℚ) * (((150 / 100 : ℚ) - (100 / 100 : ℚ)) * ((0 : ℤ) : ℚ)) =
      ((0 : ℤ) : ℚ) := by
    norm_num
  unfold add_item_totals
  rw [quantHE_eq_int _ _ h1, quantHE_eq_int _ _ h2]
  norm_num

lemma fmt02d_eq_two_digits (n : ℕ) (h : n ≤ 99) :
    fmt02d n = [digitChar (n / 10), digitChar (n % 10)] := by
  unfold fmt02d
  by_cases h10 : n < 10
  · rw [if_pos h10, Nat.div_eq_of_lt h10, Nat.mod_eq_of_lt h10]
    rfl
  · rw [if_neg h10]
    unfold decRep
    obtain ⟨k, rfl⟩ : ∃ k, n = k + 1 := ⟨n - 1, by omega⟩
    have hlt : (k + 1) / 10 < 10 := by omega
    simp only [decRepCore]
    rw [if_neg h10, if_pos hlt]

/-- C7 (amended): `_emv_kv` never fails; for every value of at most 99
characters it returns `id ++` the character count zero-padded to exactly 2
digits `++ value`, and for longer values it silently emits the full decimal
length (3 or more digits) instead of failing with a FieldTooLong error. -/
theorem C7_emv_kv_amended (i v : List Char) (h : v.length ≤ 99) :
    _emv_kv i v = i ++ [digitChar (v.length / 10), digitChar (v.length % 10)] ++ v := by
  unfold _emv_kv
  rw [fmt02d_eq_two_digits v.length h]

/-- Witness for C7 (amended) at id `"26"` and the 14-character value
`"BR.GOV.BCB.PIX"`. -/
theorem C7_emv_kv_witness :
    ("BR.GOV.BCB.PIX".data.length ≤ 99) ∧
    _emv_kv "26".data "BR.GOV.BCB.PIX".data =
      "26".data ++ [digitChar ("BR.GOV.BCB.PIX".data.length / 10),
        digitChar ("BR.GOV.BCB.PIX".data.length % 10)] ++ "BR.GOV.BCB.PIX".data :=
  ⟨by decide, C7_emv_kv_amended "26".data "BR.GOV.BCB.PIX".data (by decide)⟩

/-- C7 counterexample: for a 100-character value the composer does not fail
with a FieldTooLong error — it returns the 105-character string
`"26" ++ "100" ++ value`, whose length field occupies three digits. -/
theorem C7_emv_kv_counterexample :
    _emv_kv "26".data (List.replicate 100 'A') =
      "26".data ++ "100".data ++ List.replicate 100 'A' ∧
    ("26".data ++ "100".data ++ List.replicate 100 'A').length = 105 := by
  constructor <;> decide

/-- C9 (amended): `to_decimal` accepts `.` and `,` interchangeably as the
fractional separator (same exact value), trims surrounding whitespace,
returns zero for the empty string, and fails (`InvalidOperation`, i.e.
`none`) exactly for text that does not match the decimal numeric-string
grammar — which, beyond plain digit strings, also admits exponent notation
and the special values `NaN`/`Infinity`, so "contains a non-numeric
character" is not equivalent to failure. -/
theorem C9_to_decimal_amended :
    (∀ s : List Char,
      to_decimal (s.map fun c => if c = ',' then '.' else c) = to_decimal s) ∧
    (∀ s : List Char, to_decimal (' ' :: s) = to_decimal s) ∧
    (∀ s : List Char, to_decimal (s ++ [' ']) = to_decimal s) ∧
    to_decimal [] = some (PyDecimal.fin 0) ∧
    to_decimal "12,34".data = some (PyDecimal.fin (1234 / 100)) ∧
    to_decimal "12.34".data = some (PyDecimal.fin (1234 / 100)) ∧
    to_decimal "abc".data = none := by
  have hfun : ((fun c => if c = ',' then '.' else c) ∘
      fun c => if c = ',' then '.' else c) = fun c : Char => if c = ',' then '.' else c := by
    funext c
    by_cases hc : c = ',' <;> simp [hc]
  have hval : ∀ x : List Char, x = "12,34".data ∨ x = "12.34".data →
      to_decimal x = some (PyDecimal.fin (1234 / 100)) := by
    intro x hx
    have h0 : to_decimal x = some (PyDecimal.fin ((digitsNat ['1', '2'] : ℚ) +
        (digitsNat ['3', '4'] : ℚ) / 10 ^ (['3', '4'] : List Char).length)) := by
      rcases hx with rfl | rfl <;> rfl
    rw [h0, show digitsNat ['1', '2'] = 12 from by decide,
        show digitsNat ['3', '4'] = 34 from by decide]
    simp only [Option.some.injEq, PyDecimal.fin.injEq, List.length_cons,
      List.length_nil]
    norm_num
  refine ⟨?_, ?_, ?_, by decide, hval _ (Or.inl rfl), hval _ (Or.inr rfl), by decide⟩
  · intro s
    unfold to_decimal
    rw [List.map_map, hfun]
  · intro s
    unfold to_decimal
    rw [show ((' ' :: s).map fun c => if c = ',' then '.' else c) =
        ' ' :: (s.map fun c => if c = ',' then '.' else c) from by simp,
      pyStrip_space_left]
  · intro s
    unfold to_decimal
    rw [show ((s ++ [' ']).map fun c => if c = ',' then '.' else c) =
        (s.map fun c => if c = ',' then '.' else c) ++ [' '] from by simp,
      pyStrip_space_right]

/-- C9 counterexample: `to_decimal("nan")` and `to_decimal("2e1")` both
succeed — returning `NaN` and `20` respectively — although `'n'` and `'e'`
are non-numeric characters still present after separator normalization, so
the claim's "fails with a ParseError for any input that still contains
non-numeric characters" is false on the code. -/
theorem C9_to_decimal_counterexample :
    to_decimal "nan".data = some PyDecimal.nan ∧
    to_decimal "2e1".data = some (PyDecimal.fin 20) ∧
    ('n' ∈ "nan".data ∧ 'n'.isDigit = false) ∧
    ('e' ∈ "2e1".data ∧ 'e'.isDigit = false) := by
  refine ⟨by decide, ?_, by decide, by decide⟩
  have h0 : to_decimal "2e1".data = some (PyDecimal.fin ((digitsNat ['2'] : ℚ) *
      10 ^ ((digitsNat ['1'] : ℤ)))) := rfl
  rw [h0, show digitsNat ['2'] = 2 from by decide,
      show digitsNat ['1'] = 1 from by decide]
  simp only [Option.some.injEq, PyDecimal.fin.injEq]
  norm_num

/-- Witness for C10 at `key="k"`, `name="N"`, `city="C"`, no amount,
`txid="T"`. -/
theorem C10_truncation_witness :
    ("k".data ≠ ([] : List Char)) ∧ ("N".data ≠ ([] : List Char)) ∧
    ("C".data ≠ ([] : List Char)) ∧
    (pyOr ("N".data.take 25) "LOJA".data = "N".data.take 25 ∧
    pyOr ("C".data.take 15) "CIDADE".data = "C".data.take 15 ∧
    ("59".data, "N".data.take 25) ∈ pixFields "k".data "N".data "C".data none "T".data ∧
    ("60".data, "C".data.take 15) ∈ pixFields "k".data "N".data "C".data none "T".data ∧
    build_pix_payload "k".data "N".data "C".data none "T".data =
      assemble (pixFields "k".data "N".data "C".data none "T".data) ∧
    build_pix_payload "k".data "N".data "C".data none "T".data ≠ []) :=
  ⟨by decide, by decide, by decide,
   C10_truncation "k".data "N".data "C".data none "T".data (by decide) (by decide)
     (by decide)⟩

end Adega
